import Mathlib

/-!
Shallow embedding of the watch-party subsystem of the repository.

Client side: the `WatchParty` React component (room creation and join flows,
socket event handlers, transport controls, chat and reactions) is embedded as
pure transition functions on an explicit `ClientState`; each function returns
the updated state together with the list of outward effects (socket emissions
and player seeks) the call performs.

Server side: the repository ships only the client; the room registry,
presence manager, playback-state synchronizer and broadcast channel the
client talks to are described by the specification but absent from the
source.  Those definitions are modelled from the spec and each is marked as
such in its doc comment.

Numbers: JavaScript floating-point times and positions are modelled as `ℚ`;
identifiers and timestamps as `ℕ` or `String`.
-/

namespace WatchParty

/-- A chat message as built by `sendMessage` and as delivered by the
chat-message socket handler: `{ text, user, timestamp, avatar }`. -/
structure ChatMessage where
  text : String
  user : String
  timestamp : String
  avatar : String
deriving DecidableEq

/-- A reaction payload as carried by a reaction-sent socket event.  The
payload built by `sendReaction` is `{ type, user, x, y }` and carries no
`id` field; `id` is `Option ℕ` so that a payload with or without an `id`
can be expressed (`none` models JavaScript `undefined`). -/
structure ReactionPayload where
  type : String
  user : String
  x : ℚ
  y : ℚ
  id : Option ℕ
deriving DecidableEq

/-- A reaction stored in the client's `reactions` list.  The reaction-sent
handler stores `{ ...reaction, id: Date.now() + Math.random() }`, so the
stored `id` is always a freshly generated number: the trailing `id:` field
overrides any `id` the payload may have carried. -/
structure StoredReaction where
  type : String
  user : String
  x : ℚ
  y : ℚ
  id : ℕ
deriving DecidableEq

/-- JavaScript strict inequality `r.id !== reaction.id` between a stored
reaction's numeric id and a payload id that may be `undefined` (`none`):
a number is `!==` `undefined`, and two numbers are `!==` iff distinct. -/
def jsIdNeq (stored : ℕ) (payload : Option ℕ) : Bool :=
  match payload with
  | none => true
  | some m => decide (stored ≠ m)

/-- The transport actions carried by a `video-control` emission. -/
inductive VideoAction
  | play
  | pause
  | seek
deriving DecidableEq

/-- The payload emitted on the `video-control` socket event by
`handlePlayPause` and `handleSeek`: `{ action, currentTime }`.  It carries
no revision field of any kind. -/
structure VideoControl where
  action : VideoAction
  currentTime : ℚ
deriving DecidableEq

/-- Outward effects a client handler performs: socket emissions and calls
into the video player (`playerRef.current.seekTo`). -/
inductive ClientEffect
  | emitVideoControl (payload : VideoControl)
  | emitChatMessage (m : ChatMessage)
  | emitReaction (r : ReactionPayload)
  | playerSeekTo (time : ℚ)
deriving DecidableEq

/-- The React state of the `WatchParty` component that the embedded handlers
read and write.  `socketConnected` models `socket` being non-null and
`playerPresent` models `playerRef.current` being non-null. -/
structure ClientState where
  roomId : String
  inviteCode : String
  isHost : Bool
  isPlaying : Bool
  currentTime : ℚ
  chatMessages : List ChatMessage
  newMessage : String
  reactions : List StoredReaction
  socketConnected : Bool
  playerPresent : Bool
deriving DecidableEq

/-- The synchronous state updates of the success path of
`initializeWatchParty`: the create endpoint returns `roomId` and
`inviteCode`, and the client sets them and flags itself host
(`setIsHost(true)`). -/
def initializeWatchParty (s : ClientState) (newRoomId newInviteCode : String) :
    ClientState :=
  { s with roomId := newRoomId, inviteCode := newInviteCode, isHost := true }

/-- The success path of `joinRoom`: the join endpoint resolves the invite
code to a room id, and the client sets it, flags itself non-host
(`setIsHost(false)`), stores the socket and marks itself connected. -/
def joinRoom (s : ClientState) (joinRoomId : String) : ClientState :=
  { s with roomId := joinRoomId, isHost := false, socketConnected := true }

/-- The video-state-changed socket handler: when the player ref is present
it stores the received `isPlaying` and `currentTime` unconditionally (no
revision check of any kind), and when the received state is playing it also
seeks the player to the received time. -/
def onVideoStateChanged (s : ClientState) (playing : Bool) (time : ℚ) :
    ClientState × List ClientEffect :=
  if s.playerPresent = true then
    ({ s with isPlaying := playing, currentTime := time },
     if playing = true then [ClientEffect.playerSeekTo time] else [])
  else
    (s, [])

/-- The chat-message socket handler: appends the delivered message at the
end of the `chatMessages` list. -/
def onChatMessage (s : ClientState) (m : ChatMessage) : ClientState :=
  { s with chatMessages := s.chatMessages ++ [m] }

/-- The reaction-sent socket handler: appends the payload with a freshly
generated id (`{ ...reaction, id: Date.now() + Math.random() }`, modelled by
the parameter `freshId`). -/
def onReactionSent (s : ClientState) (r : ReactionPayload) (freshId : ℕ) :
    ClientState :=
  { s with reactions := s.reactions ++ [⟨r.type, r.user, r.x, r.y, freshId⟩] }

/-- The cleanup scheduled by the reaction-sent handler three seconds after
receipt: it keeps every stored reaction whose id is `!==` the incoming
payload's id (`prev.filter(r => r.id !== reaction.id)`). -/
def reactionCleanup (s : ClientState) (r : ReactionPayload) : ClientState :=
  { s with reactions := s.reactions.filter (fun st => jsIdNeq st.id r.id) }

/-- `handlePlayPause`: only when the client is host and the socket is set,
it toggles `isPlaying`, emits a `video-control` event with the toggled
action and the player's current time (`getCurrentTime() || 0`), and stores
the toggled play state; otherwise it does nothing. -/
def handlePlayPause (s : ClientState) (playerTime : ℚ) :
    ClientState × List ClientEffect :=
  if s.isHost = true ∧ s.socketConnected = true then
    let newPlayState := !s.isPlaying
    let time := if s.playerPresent = true then playerTime else 0
    ({ s with isPlaying := newPlayState },
     [ClientEffect.emitVideoControl
        ⟨if newPlayState = true then VideoAction.play else VideoAction.pause, time⟩])
  else
    (s, [])

/-- `handleSeek`: only when the client is host and the socket is set, it
emits a `video-control` seek event; otherwise it does nothing.  It changes
no client state either way. -/
def handleSeek (s : ClientState) (time : ℚ) : ClientState × List ClientEffect :=
  if s.isHost = true ∧ s.socketConnected = true then
    (s, [ClientEffect.emitVideoControl ⟨VideoAction.seek, time⟩])
  else
    (s, [])

/-- The avatar gradient styles of the component. -/
def avatarStyles : List String :=
  ["from-purple-400 to-pink-400", "from-blue-400 to-cyan-400",
   "from-green-400 to-emerald-400", "from-orange-400 to-red-400",
   "from-indigo-400 to-purple-400", "from-yellow-400 to-orange-400",
   "from-pink-400 to-rose-400", "from-teal-400 to-green-400"]

/-- `sendMessage`: when the trimmed input is non-empty and the socket is
set, it emits a chat-message event built from the (untrimmed) input and
clears the input field; otherwise it does nothing.  The local
`chatMessages` list is never touched.  `ts` models `new Date().toISOString()`
and `avatarIdx` the random avatar pick. -/
def sendMessage (s : ClientState) (ts : String) (avatarIdx : ℕ) :
    ClientState × List ClientEffect :=
  if s.newMessage.trim ≠ "" ∧ s.socketConnected = true then
    ({ s with newMessage := "" },
     [ClientEffect.emitChatMessage
        ⟨s.newMessage, "Current User", ts,
         avatarStyles.getD (avatarIdx % avatarStyles.length) ""⟩])
  else
    (s, [])

/-- `sendReaction`: when the socket is set, it emits a reaction payload
`{ type, user, x, y }` with no id field; otherwise it does nothing. -/
def sendReaction (s : ClientState) (type : String) (x y : ℚ) :
    ClientState × List ClientEffect :=
  if s.socketConnected = true then
    (s, [ClientEffect.emitReaction ⟨type, "Current User", x, y, none⟩])
  else
    (s, [])

/-- Modelled from the spec: the authoritative `PlaybackState` of a room
(§3) — the playback-state synchronizer that owns it is absent from the
source, which ships only the client. -/
structure PlaybackState where
  positionSeconds : ℚ
  isPlaying : Bool
  lastUpdatedAt : ℚ
  revision : ℕ
deriving DecidableEq

/-- Modelled from the spec: a room participant (§3) — the presence manager
that owns the roster is absent from the source. -/
structure Participant where
  connectionId : ℕ
  joinedAt : ℕ
deriving DecidableEq

/-- Modelled from the spec: a room (§3) with its nullable host pointer,
roster and authoritative playback state; `isHost` of a participant is
derived from `hostConnectionId`, never stored redundantly. -/
structure Room where
  hostConnectionId : Option ℕ
  participants : List Participant
  playback : PlaybackState
deriving DecidableEq

/-- Modelled from the spec: the transport commands of `applyCommand`
(§4.3): Play, Pause, Seek(position). -/
inductive Command
  | play
  | pause
  | seek (position : ℚ)
deriving DecidableEq

/-- Modelled from the spec: the rejection outcomes of `applyCommand`
(§4.3). -/
inductive CmdReject
  | notHost
  | staleCommand
deriving DecidableEq

/-- Modelled from the spec: the events the broadcast channel fans out to a
room's participants (§6). -/
inductive Event
  | playbackStateChanged (state : PlaybackState)
  | hostChanged (newHostId : ℕ)
  | chatMessage (m : ChatMessage)
  | reactionSent (r : ReactionPayload)
deriving DecidableEq

/-- Modelled from the spec: the result of `applyCommand` — the (possibly
unchanged) room, the events handed to the broadcast channel, and the
rejection recorded for the sender, if any. -/
structure ApplyResult where
  room : Room
  broadcast : List Event
  reject : Option CmdReject
deriving DecidableEq

/-- Modelled from the spec: `applyCommand` of the playback-state
synchronizer (§4.3), absent from the source.  A command from a non-host is
rejected with NotHost (reported to the sender only); a command whose
observed revision is behind the room's revision is dropped as StaleCommand
with no broadcast and no state change; an accepted command updates the
state, increments the revision, stamps `lastUpdatedAt` and hands the new
state to the broadcast channel. -/
def applyCommand (room : Room) (connectionId : ℕ) (cmd : Command)
    (observedRevision : ℕ) (now : ℚ) : ApplyResult :=
  if room.hostConnectionId ≠ some connectionId then
    ⟨room, [], some CmdReject.notHost⟩
  else if observedRevision < room.playback.revision then
    ⟨room, [], some CmdReject.staleCommand⟩
  else
    let pb := room.playback
    let newPb : PlaybackState :=
      match cmd with
      | Command.play =>
          { pb with isPlaying := true, revision := pb.revision + 1, lastUpdatedAt := now }
      | Command.pause =>
          { pb with isPlaying := false, revision := pb.revision + 1, lastUpdatedAt := now }
      | Command.seek p =>
          { pb with positionSeconds := p, revision := pb.revision + 1, lastUpdatedAt := now }
    ⟨{ room with playback := newPb }, [Event.playbackStateChanged newPb], none⟩

/-- Modelled from the spec: `catchUpState` of the playback-state
synchronizer (§4.3), absent from the source — the authoritative state with
`positionSeconds` extrapolated forward by elapsed wall-clock time when
`isPlaying` is true. -/
def catchUpState (room : Room) (now : ℚ) : PlaybackState :=
  let pb := room.playback
  if pb.isPlaying = true then
    { pb with positionSeconds := pb.positionSeconds + (now - pb.lastUpdatedAt) }
  else
    pb

/-- Modelled from the spec: the join outcomes of the presence manager
(§4.2). -/
inductive JoinReject
  | roomNotFound
  | roomFull
deriving DecidableEq

/-- Modelled from the spec: `join` of the presence manager (§4.2), absent
from the source — fails with RoomFull at capacity; the first joiner becomes
host automatically. -/
def join (room : Room) (maxParticipants : ℕ) (p : Participant) :
    Except JoinReject Room :=
  if maxParticipants ≤ room.participants.length then
    Except.error JoinReject.roomFull
  else
    Except.ok
      { hostConnectionId :=
          if room.participants = [] then some p.connectionId else room.hostConnectionId,
        participants := room.participants ++ [p],
        playback := room.playback }

/-- The longest-tenured participant among `p :: rest`: the fold keeps the
earliest `joinedAt`, with ties resolved in favour of the earlier list
position (deterministic). -/
def earliestOf (p : Participant) (rest : List Participant) : Participant :=
  rest.foldl (fun best q => if q.joinedAt < best.joinedAt then q else best) p

/-- Modelled from the spec: `leave` of the presence manager (§4.2), absent
from the source — removes the participant; when the departing connection
was host, the longest-tenured remaining participant becomes the new host
and a host-changed event is emitted through the broadcast channel. -/
def leave (room : Room) (connectionId : ℕ) : Room × List Event :=
  let remaining := room.participants.filter (fun p => decide (p.connectionId ≠ connectionId))
  if room.hostConnectionId = some connectionId then
    match remaining with
    | [] => ({ hostConnectionId := none, participants := [], playback := room.playback }, [])
    | p :: rest =>
        ({ hostConnectionId := some (earliestOf p rest).connectionId,
           participants := p :: rest, playback := room.playback },
         [Event.hostChanged (earliestOf p rest).connectionId])
  else
    ({ room with participants := remaining }, [])

/-- Modelled from the spec: one publish step of the broadcast channel
(§4.4), absent from the source — the event is appended to the outbound
queue of every participant of the room, preserving per-recipient FIFO
order. -/
def publish (qs : List (ℕ × List Event)) (ev : Event) : List (ℕ × List Event) :=
  qs.map (fun q => (q.1, q.2 ++ [ev]))

/-- Modelled from the spec: a sequence of publishes to the same room's
broadcast channel, in publish order. -/
def publishAll (qs : List (ℕ × List Event)) (evs : List Event) :
    List (ℕ × List Event) :=
  evs.foldl publish qs

/-- A sample room: host connection 1, two participants joined at 10 and 20,
playing at position 30 with `lastUpdatedAt` 100 and revision 5. -/
def sampleRoom : Room := ⟨some 1, [⟨1, 10⟩, ⟨2, 20⟩], ⟨30, true, 100, 5⟩⟩

/-- A sample non-host client state with a pending chat input. -/
def sampleClient : ClientState :=
  ⟨"room1", "CODE", false, false, 0, [], "hi", [], true, true⟩

/-- A sample empty room awaiting its first joiner. -/
def emptyRoom : Room := ⟨none, [], ⟨0, false, 0, 0⟩⟩

/-- A sample reaction payload as built by `sendReaction`: no id field. -/
def sampleReaction : ReactionPayload := ⟨"❤️", "Current User", 10, 20, none⟩

/-- A sample client state at which duplicate delivery is examined: the
player ref is present. -/
def dupClient : ClientState :=
  ⟨"room1", "CODE", false, false, 0, [], "", [], true, true⟩

/-- A sample room about to lose its host: connection 9 (joined at 5) is
host; connections 11 and 12 joined at 10 and 20. -/
def handoverRoom : Room := ⟨some 9, [⟨9, 5⟩, ⟨11, 10⟩, ⟨12, 20⟩], ⟨30, true, 100, 5⟩⟩

/-- A roster whose connection ids are pairwise distinct carries at most one
participant whose id equals a given host pointer. -/
theorem countHost_le_one (h : Option ℕ) (l : List Participant)
    (hdist : l.Pairwise (fun p q => p.connectionId ≠ q.connectionId)) :
    l.countP (fun p => decide (h = some p.connectionId)) ≤ 1 := by
  induction l with
  | nil => simp
  | cons a l ih =>
      rw [List.pairwise_cons] at hdist
      obtain ⟨ha, hl⟩ := hdist
      rw [List.countP_cons]
      by_cases hk : h = some a.connectionId
      · have hzero : l.countP (fun p => decide (h = some p.connectionId)) = 0 := by
          apply List.countP_eq_zero.mpr
          intro p hp
          simp only [hk, decide_eq_true_eq, Option.some.injEq]
          exact ha p hp
        rw [hzero]
        split <;> omega
      · have hcount := ih hl
        have hif : (if decide (h = some a.connectionId) = true then 1 else 0) = 0 := by
          simp [hk]
        rw [hif]
        omega

/-- The fold in `earliestOf` returns an element of `p :: rest` whose
`joinedAt` is minimal over `p :: rest`. -/
theorem earliestOf_spec (rest : List Participant) :
    ∀ p : Participant,
      (earliestOf p rest = p ∨ earliestOf p rest ∈ rest) ∧
      (earliestOf p rest).joinedAt ≤ p.joinedAt ∧
      (∀ q ∈ rest, (earliestOf p rest).joinedAt ≤ q.joinedAt) := by
  induction rest with
  | nil =>
      intro p
      refine ⟨Or.inl rfl, le_refl _, ?_⟩
      intro q hq
      simp at hq
  | cons r rest ih =>
      intro p
      have hstep : earliestOf p (r :: rest) =
          earliestOf (if r.joinedAt < p.joinedAt then r else p) rest := by
        simp [earliestOf, List.foldl_cons]
      rw [hstep]
      by_cases hlt : r.joinedAt < p.joinedAt
      · rw [if_pos hlt]
        obtain ⟨hmem, hle, hall⟩ := ih r
        refine ⟨?_, ?_, ?_⟩
        · rcases hmem with hm | hm
          · exact Or.inr (by rw [hm]; exact List.mem_cons_self r rest)
          · exact Or.inr (List.mem_cons_of_mem r hm)
        · exact le_trans hle (le_of_lt hlt)
        · intro q hq
          rcases List.mem_cons.mp hq with hq | hq
          · rw [hq]; exact hle
          · exact hall q hq
      · rw [if_neg hlt]
        obtain ⟨hmem, hle, hall⟩ := ih p
        push_neg at hlt
        refine ⟨?_, hle, ?_⟩
        · rcases hmem with hm | hm
          · exact Or.inl hm
          · exact Or.inr (List.mem_cons_of_mem r hm)
        · intro q hq
          rcases List.mem_cons.mp hq with hq | hq
          · rw [hq]; exact le_trans hle hlt
          · exact hall q hq

/-- Publishing a sequence of events appends all of them, in publish order,
to every participant's outbound queue. -/
theorem publishAll_eq (evs : List Event) :
    ∀ qs : List (ℕ × List Event),
      publishAll qs evs = qs.map (fun q => (q.1, q.2 ++ evs)) := by
  induction evs with
  | nil =>
      intro qs
      simp [publishAll]
  | cons e evs ih =>
      intro qs
      have hstep : publishAll qs (e :: evs) = publishAll (publish qs e) evs := by
        simp [publishAll, List.foldl_cons]
      rw [hstep, ih (publish qs e)]
      simp [publish, List.map_map, Function.comp_def, List.append_assoc]

/-- Folding the chat-message handler over a delivered sequence appends the
messages, in delivery order, at the end of the chat list. -/
theorem foldl_onChatMessage (msgs : List ChatMessage) :
    ∀ s : ClientState,
      (msgs.foldl onChatMessage s).chatMessages = s.chatMessages ++ msgs := by
  induction msgs with
  | nil => intro s; simp
  | cons m msgs ih =>
      intro s
      simp only [List.foldl_cons]
      rw [ih (onChatMessage s m)]
      simp [onChatMessage]

/-- C1: for every room whose roster has pairwise-distinct connection ids,
the number of participants flagged host (derived from the nullable
`hostConnectionId`) is at most one, and it is zero when the host pointer is
null (the handover instant); and in the client code, a client that creates
a room flags itself host while a client that joins via an invite code flags
itself non-host. -/
theorem c1_host_flag_invariant (room : Room)
    (hdist : room.participants.Pairwise (fun p q => p.connectionId ≠ q.connectionId))
    (s t : ClientState) (rid code jid : String) :
    room.participants.countP
        (fun p => decide (room.hostConnectionId = some p.connectionId)) ≤ 1 ∧
    (room.hostConnectionId = none →
      room.participants.countP
        (fun p => decide (room.hostConnectionId = some p.connectionId)) = 0) ∧
    (initializeWatchParty s rid code).isHost = true ∧
    (joinRoom t jid).isHost = false := by
  refine ⟨countHost_le_one _ _ hdist, ?_, rfl, rfl⟩
  intro hnone
  apply List.countP_eq_zero.mpr
  intro p hp
  simp [hnone]

/-- Witness for C1 at the sample room and client. -/
theorem c1_host_flag_invariant_witness :
    sampleRoom.participants.Pairwise (fun p q => p.connectionId ≠ q.connectionId) ∧
    sampleRoom.participants.countP
        (fun p => decide (sampleRoom.hostConnectionId = some p.connectionId)) ≤ 1 ∧
    (sampleRoom.hostConnectionId = none →
      sampleRoom.participants.countP
        (fun p => decide (sampleRoom.hostConnectionId = some p.connectionId)) = 0) ∧
    (initializeWatchParty sampleClient "room2" "CODE2").isHost = true ∧
    (joinRoom sampleClient "room3").isHost = false :=
  ⟨by decide,
   c1_host_flag_invariant sampleRoom (by decide) sampleClient sampleClient
     "room2" "CODE2" "room3"⟩

/-- C2: a non-host client emits no transport command at all (both handlers
do nothing and change no state), and the modelled synchronizer rejects a
command from a connection that is not the host with NotHost reported to the
sender only: no event is handed to the broadcast channel and the room —
hence its revision — is unchanged. -/
theorem c2_nonhost_command_rejected (s : ClientState) (hs : s.isHost = false)
    (pt t : ℚ) (room : Room) (c : ℕ) (hc : room.hostConnectionId ≠ some c)
    (cmd : Command) (obs : ℕ) (now : ℚ) :
    handlePlayPause s pt = (s, []) ∧
    handleSeek s t = (s, []) ∧
    applyCommand room c cmd obs now = ⟨room, [], some CmdReject.notHost⟩ := by
  refine ⟨?_, ?_, ?_⟩
  · simp [handlePlayPause, hs]
  · simp [handleSeek, hs]
  · simp [applyCommand, hc]

/-- Witness for C2: connection 2 is not the host of the sample room. -/
theorem c2_nonhost_command_rejected_witness :
    (sampleClient.isHost = false ∧ sampleRoom.hostConnectionId ≠ some 2) ∧
    (handlePlayPause sampleClient 3 = (sampleClient, []) ∧
     handleSeek sampleClient 4 = (sampleClient, []) ∧
     applyCommand sampleRoom 2 Command.pause 5 101 =
       ⟨sampleRoom, [], some CmdReject.notHost⟩) :=
  ⟨⟨rfl, by decide⟩,
   c2_nonhost_command_rejected sampleClient rfl 3 4 sampleRoom 2 (by decide)
     Command.pause 5 101⟩

/-- C4: a command from the host whose observed revision is behind the
room's current revision is dropped as StaleCommand: the room (and so its
state and revision) is unchanged and nothing is handed to the broadcast
channel, so no error surfaces to other participants. -/
theorem c4_stale_command_dropped (room : Room) (c : ℕ) (cmd : Command)
    (obs : ℕ) (now : ℚ) (hhost : room.hostConnectionId = some c)
    (hstale : obs < room.playback.revision) :
    applyCommand room c cmd obs now = ⟨room, [], some CmdReject.staleCommand⟩ := by
  simp [applyCommand, hhost, hstale]

/-- Witness for C4: observed revision 3 is behind the sample room's
revision 5. -/
theorem c4_stale_command_dropped_witness :
    (sampleRoom.hostConnectionId = some 1 ∧ 3 < sampleRoom.playback.revision) ∧
    applyCommand sampleRoom 1 Command.play 3 101 =
      ⟨sampleRoom, [], some CmdReject.staleCommand⟩ :=
  ⟨⟨rfl, by decide⟩,
   c4_stale_command_dropped sampleRoom 1 Command.play 3 101 rfl (by decide)⟩

/-- C6: when the room's state is playing, `catchUpState` returns the
authoritative state with `positionSeconds` extrapolated forward by the
wall-clock time elapsed since `lastUpdatedAt`, still playing, at the same
revision. -/
theorem c6_catchUpState_extrapolates (room : Room) (now : ℚ)
    (hplay : room.playback.isPlaying = true) :
    (catchUpState room now).positionSeconds =
      room.playback.positionSeconds + (now - room.playback.lastUpdatedAt) ∧
    (catchUpState room now).isPlaying = true ∧
    (catchUpState room now).revision = room.playback.revision := by
  refine ⟨?_, ?_, ?_⟩ <;> simp [catchUpState, hplay]

/-- Witness for C6, the scenario of the spec: position 30, five seconds
elapsed since `lastUpdatedAt` 100, yielding position 35. -/
theorem c6_catchUpState_extrapolates_witness :
    sampleRoom.playback.isPlaying = true ∧
    ((catchUpState sampleRoom 105).positionSeconds = 30 + (105 - 100) ∧
     (catchUpState sampleRoom 105).isPlaying = true ∧
     (catchUpState sampleRoom 105).revision = 5) :=
  ⟨rfl, c6_catchUpState_extrapolates sampleRoom 105 rfl⟩

/-- C3 counterexample: the video-state-changed handler performs no revision
check (its payload carries none), and delivering the same playing-state
event a second time is not a client-visible no-op: the second delivery
re-issues `seekTo(30)` against the player, which rewinds any playback
progress made since the first delivery. -/
theorem c3_duplicate_delivery_reissues_seek :
    (onVideoStateChanged (onVideoStateChanged dupClient true 30).1 true 30).2 =
      [ClientEffect.playerSeekTo 30] ∧
    (onVideoStateChanged (onVideoStateChanged dupClient true 30).1 true 30).2 ≠ [] := by
  constructor
  · decide
  · decide

/-- C3 amended: delivering the same `video-state-changed` event twice
leaves the client's stored React state unchanged — not through any revision
check (the handler performs none) but because the handler unconditionally
re-stores the same `isPlaying`/`currentTime` values; the duplicate however
re-issues the same player seek effect, so duplicate delivery is idempotent
on state but not effect-free. -/
theorem c3_duplicate_delivery_state_idempotent (s : ClientState)
    (playing : Bool) (time : ℚ) :
    (onVideoStateChanged (onVideoStateChanged s playing time).1 playing time).1 =
      (onVideoStateChanged s playing time).1 ∧
    (onVideoStateChanged (onVideoStateChanged s playing time).1 playing time).2 =
      (onVideoStateChanged s playing time).2 := by
  by_cases hp : s.playerPresent = true
  · simp [onVideoStateChanged, hp]
  · simp [onVideoStateChanged, hp]

/-- C5: when the departing connection was the host and other participants
remain, the new host is one of the remaining participants, its `joinedAt`
is minimal among them (longest tenured), and the emitted events consist of
exactly one HostChanged naming it, handed to the broadcast channel for the
remaining participants. -/
theorem c5_host_handover_earliest (room : Room) (c : ℕ)
    (hhost : room.hostConnectionId = some c)
    (hrem : room.participants.filter (fun p => decide (p.connectionId ≠ c)) ≠ []) :
    ∃ p : Participant,
      p ∈ (leave room c).1.participants ∧
      (leave room c).1.hostConnectionId = some p.connectionId ∧
      (∀ q ∈ (leave room c).1.participants, p.joinedAt ≤ q.joinedAt) ∧
      (leave room c).2 = [Event.hostChanged p.connectionId] := by
  rcases hE : room.participants.filter (fun p => decide (p.connectionId ≠ c)) with
    _ | ⟨p0, rest⟩
  · exact absurd hE hrem
  · have hleave : leave room c =
        ({ hostConnectionId := some (earliestOf p0 rest).connectionId,
           participants := p0 :: rest, playback := room.playback },
         [Event.hostChanged (earliestOf p0 rest).connectionId]) := by
      have hE2 : List.filter (fun p => !decide (p.connectionId = c)) room.participants =
          p0 :: rest := by
        simpa [ne_eq, decide_not] using hE
      simp [leave, hhost, hE2]
    obtain ⟨hmem, hle, hall⟩ := earliestOf_spec rest p0
    refine ⟨earliestOf p0 rest, ?_, ?_, ?_, ?_⟩
    · rw [hleave]
      rcases hmem with hm | hm
      · rw [hm]; exact List.mem_cons_self p0 rest
      · exact List.mem_cons_of_mem p0 hm
    · rw [hleave]
    · rw [hleave]
      intro q hq
      rcases List.mem_cons.mp hq with hq | hq
      · rw [hq]; exact hle
      · exact hall q hq
    · rw [hleave]

/-- Witness for C5, the scenario of the spec: the host leaves a room whose
two other participants joined at 10 and 20; the participant who joined at
10 becomes host and the HostChanged event names it. -/
theorem c5_host_handover_earliest_witness :
    (handoverRoom.hostConnectionId = some 9 ∧
     handoverRoom.participants.filter (fun p => decide (p.connectionId ≠ 9)) ≠ []) ∧
    (∃ p : Participant,
      p ∈ (leave handoverRoom 9).1.participants ∧
      (leave handoverRoom 9).1.hostConnectionId = some p.connectionId ∧
      (∀ q ∈ (leave handoverRoom 9).1.participants, p.joinedAt ≤ q.joinedAt) ∧
      (leave handoverRoom 9).2 = [Event.hostChanged p.connectionId]) :=
  ⟨⟨rfl, by decide⟩, c5_host_handover_earliest handoverRoom 9 rfl (by decide)⟩

/-- C7: the success path of `initializeWatchParty` flags the creating
client host, the success path of `joinRoom` flags the invited client
non-host, and the modelled presence manager makes the first joiner of an
empty room its host. -/
theorem c7_creator_and_first_joiner_host (s t : ClientState)
    (rid code jid : String) (room : Room) (maxP : ℕ) (p : Participant)
    (hempty : room.participants = []) (hmax : 0 < maxP) :
    (initializeWatchParty s rid code).isHost = true ∧
    (joinRoom t jid).isHost = false ∧
    join room maxP p =
      Except.ok { hostConnectionId := some p.connectionId,
                  participants := [p], playback := room.playback } := by
  refine ⟨rfl, rfl, ?_⟩
  have hne : maxP ≠ 0 := by omega
  simp [join, hempty, hne]

/-- Witness for C7: the first joiner of the sample empty room (capacity 10)
becomes its host. -/
theorem c7_creator_and_first_joiner_host_witness :
    (emptyRoom.participants = [] ∧ 0 < 10) ∧
    ((initializeWatchParty sampleClient "room2" "CODE2").isHost = true ∧
     (joinRoom sampleClient "room3").isHost = false ∧
     join emptyRoom 10 ⟨7, 1⟩ =
       Except.ok { hostConnectionId := some 7,
                   participants := [⟨7, 1⟩], playback := emptyRoom.playback }) :=
  ⟨⟨rfl, by decide⟩,
   c7_creator_and_first_joiner_host sampleClient sampleClient "room2" "CODE2"
     "room3" emptyRoom 10 ⟨7, 1⟩ rfl (by decide)⟩

/-- C8: the modelled broadcast channel is FIFO per room per recipient — a
publish sequence lands, in publish order, at the end of every participant's
outbound queue, so a participant receiving events A and B with A published
first receives A before B — and the client's chat handler appends each
delivered message at the end of the chat list, so display order equals
delivery order. -/
theorem c8_fifo_and_chat_append (qs : List (ℕ × List Event)) (c : ℕ)
    (q0 : List Event) (hmem : (c, q0) ∈ qs) (evs : List Event)
    (s : ClientState) (msgs : List ChatMessage) :
    (c, q0 ++ evs) ∈ publishAll qs evs ∧
    (msgs.foldl onChatMessage s).chatMessages = s.chatMessages ++ msgs := by
  constructor
  · rw [publishAll_eq]
    exact List.mem_map.mpr ⟨(c, q0), hmem, rfl⟩
  · exact foldl_onChatMessage msgs s

/-- Witness for C8: two events published to a one-recipient channel arrive
appended in publish order, and one delivered chat message lands at the end
of the sample client's chat list. -/
theorem c8_fifo_and_chat_append_witness :
    ((1 : ℕ), ([] : List Event)) ∈ [((1 : ℕ), ([] : List Event))] ∧
    (((1 : ℕ), ([] : List Event) ++ [Event.hostChanged 2, Event.hostChanged 3]) ∈
        publishAll [((1 : ℕ), ([] : List Event))]
          [Event.hostChanged 2, Event.hostChanged 3] ∧
     (([⟨"hey", "u", "t", "a"⟩] : List ChatMessage).foldl onChatMessage
         sampleClient).chatMessages =
       sampleClient.chatMessages ++ [⟨"hey", "u", "t", "a"⟩]) :=
  ⟨by decide,
   c8_fifo_and_chat_append [((1 : ℕ), ([] : List Event))] 1 [] (by decide)
     [Event.hostChanged 2, Event.hostChanged 3] sampleClient
     [⟨"hey", "u", "t", "a"⟩]⟩

/-- C9: `sendMessage` never touches the local chat list nor any other
state field except the input field: when the trimmed input is non-empty and
the socket is set it emits exactly one chat-message event (built from the
untrimmed input) and clears the input, otherwise it is a complete no-op; a
sender's own message reaches the local chat list only through the
chat-message handler, which appends whatever the server delivers. -/
theorem c9_sendMessage_frame (s : ClientState) (ts : String) (ai : ℕ)
    (m : ChatMessage) :
    (sendMessage s ts ai).1.chatMessages = s.chatMessages ∧
    (sendMessage s ts ai).1.roomId = s.roomId ∧
    (sendMessage s ts ai).1.inviteCode = s.inviteCode ∧
    (sendMessage s ts ai).1.isHost = s.isHost ∧
    (sendMessage s ts ai).1.isPlaying = s.isPlaying ∧
    (sendMessage s ts ai).1.currentTime = s.currentTime ∧
    (sendMessage s ts ai).1.reactions = s.reactions ∧
    (sendMessage s ts ai).1.socketConnected = s.socketConnected ∧
    (sendMessage s ts ai).1.playerPresent = s.playerPresent ∧
    (s.newMessage.trim ≠ "" ∧ s.socketConnected = true →
      (sendMessage s ts ai).1.newMessage = "" ∧
      (sendMessage s ts ai).2 =
        [ClientEffect.emitChatMessage
          ⟨s.newMessage, "Current User", ts,
           avatarStyles.getD (ai % avatarStyles.length) ""⟩]) ∧
    (¬(s.newMessage.trim ≠ "" ∧ s.socketConnected = true) →
      sendMessage s ts ai = (s, [])) ∧
    (onChatMessage s m).chatMessages = s.chatMessages ++ [m] := by
  by_cases hc : s.newMessage.trim ≠ "" ∧ s.socketConnected = true
  · simp only [sendMessage, if_pos hc, onChatMessage]
    simp [hc]
  · simp only [sendMessage, if_neg hc, onChatMessage]
    simp [hc]

/-- Witness for C9 at the sample client, whose pending input is non-empty:
the chat list, invite code, socket and player flags are untouched and the
input is cleared by the emission. -/
theorem c9_sendMessage_frame_witness :
    (sendMessage sampleClient "ts" 0).1.chatMessages = sampleClient.chatMessages ∧
    (sendMessage sampleClient "ts" 0).1.inviteCode = sampleClient.inviteCode ∧
    (sendMessage sampleClient "ts" 0).1.socketConnected = sampleClient.socketConnected ∧
    (sendMessage sampleClient "ts" 0).1.playerPresent = sampleClient.playerPresent ∧
    (sampleClient.newMessage.trim ≠ "" ∧ sampleClient.socketConnected = true →
      (sendMessage sampleClient "ts" 0).1.newMessage = "" ∧
      (sendMessage sampleClient "ts" 0).2 =
        [ClientEffect.emitChatMessage
          ⟨sampleClient.newMessage, "Current User", "ts",
           avatarStyles.getD (0 % avatarStyles.length) ""⟩]) := by
  obtain ⟨h1, h2, h3, h4, h5, h6, h7, h8, h9, h10, h11, h12⟩ :=
    c9_sendMessage_frame sampleClient "ts" 0 ⟨"hey", "u", "t", "a"⟩
  exact ⟨h1, h3, h8, h9, h10⟩

/-- C10: a reaction delivered with no id in its payload is stored with a
freshly generated id, and the scheduled cleanup — which filters stored ids
against the payload's (absent) id — removes nothing, on any state: the
reactions list only grows, by one per delivery. -/
theorem c10_reaction_no_id_never_removed (s : ClientState)
    (r : ReactionPayload) (hid : r.id = none) (freshId : ℕ) :
    (onReactionSent s r freshId).reactions =
      s.reactions ++ [⟨r.type, r.user, r.x, r.y, freshId⟩] ∧
    reactionCleanup (onReactionSent s r freshId) r = onReactionSent s r freshId ∧
    (∀ t : ClientState, reactionCleanup t r = t) ∧
    (onReactionSent s r freshId).reactions.length = s.reactions.length + 1 := by
  have hfilter : ∀ l : List StoredReaction,
      l.filter (fun st => jsIdNeq st.id r.id) = l := by
    intro l
    apply List.filter_eq_self.mpr
    intro a _
    simp [jsIdNeq, hid]
  refine ⟨rfl, ?_, ?_, by simp [onReactionSent]⟩
  · unfold reactionCleanup
    rw [hfilter]
  · intro t
    unfold reactionCleanup
    rw [hfilter]

/-- Witness for C10: the sample id-less reaction payload, delivered to the
sample client, is stored with fresh id 42 and survives its own cleanup. -/
theorem c10_reaction_no_id_never_removed_witness :
    sampleReaction.id = none ∧
    (reactionCleanup (onReactionSent sampleClient sampleReaction 42) sampleReaction =
        onReactionSent sampleClient sampleReaction 42 ∧
     (onReactionSent sampleClient sampleReaction 42).reactions.length =
        sampleClient.reactions.length + 1) :=
  ⟨rfl,
   (c10_reaction_no_id_never_removed sampleClient sampleReaction rfl 42).2.1,
   (c10_reaction_no_id_never_removed sampleClient sampleReaction rfl 42).2.2.2⟩

end WatchParty
